import Mathlib

/-!
Verification of the govscout synchronization engine: a shallow embedding of
the pagination / rate-limit-aware fetch loop (src/api.rs), the persistence
layer (src/db.rs) and the two-phase sync scheduler (src/sync.rs), together
with theorems settling the specification claims.

Conventions of the embedding:
* machine integers (u32/u64/usize/i64) become Nat or Int — none of the
  loops can overflow them on reachable inputs, and no claim is about
  wrap-around behaviour;
* the HTTP layer is an oracle `Nat → Except ApiError ApiResponse` mapping a
  requested offset to the classified outcome of that single request, exactly
  the four-way classification performed by `SamGovClient::search`;
* the `while`/`loop` constructs are embedded as fuel-indexed recursions
  returning `none` when the fuel runs out (an adversarial upstream can keep
  both loops running forever, so they are not total);
* SQLite tables become Lean lists of row structures; AUTOINCREMENT ids are
  explicit counters; `datetime(now)` timestamps become an explicit `now`
  parameter.
-/

/-! ## Wire data model (src/api.rs) -/

/-- `PointOfContact` from src/api.rs. -/
structure PointOfContact where
  contact_type : Option String
  full_name : Option String
  email : Option String
  phone : Option String
  title : Option String
deriving DecidableEq

/-- `Awardee` from src/api.rs. -/
structure Awardee where
  name : Option String
  duns : Option String
  uei_sam : Option String
deriving DecidableEq

/-- `Award` from src/api.rs. -/
structure Award where
  amount : Option String
  date : Option String
  number : Option String
  awardee : Option Awardee
deriving DecidableEq

/-- `PlaceValue` from src/api.rs. -/
structure PlaceValue where
  code : Option String
  name : Option String
deriving DecidableEq

/-- `PlaceOfPerformance` from src/api.rs. -/
structure PlaceOfPerformance where
  state : Option PlaceValue
  city : Option PlaceValue
  country : Option PlaceValue
  zip : Option String
deriving DecidableEq

/-- `Opportunity` from src/api.rs: one upstream notice record. -/
structure Opportunity where
  notice_id : Option String
  title : Option String
  solicitation_number : Option String
  department : Option String
  sub_tier : Option String
  office : Option String
  full_parent_path_name : Option String
  organization_type : Option String
  opp_type : Option String
  base_type : Option String
  posted_date : Option String
  response_deadline : Option String
  archive_date : Option String
  naics_code : Option String
  classification_code : Option String
  set_aside : Option String
  set_aside_description : Option String
  description : Option String
  ui_link : Option String
  resource_links : Option (List String)
  award : Option Award
  point_of_contact : Option (List PointOfContact)
  place_of_performance : Option PlaceOfPerformance
  active : Option String
deriving DecidableEq

/-- `ApiResponse` from src/api.rs: `totalRecords` and `opportunitiesData`,
both nullable. -/
structure ApiResponse where
  total_records : Option Nat
  opportunities_data : Option (List Opportunity)
deriving DecidableEq

/-- An `Opportunity` with every field absent (deserialization of `{}`). -/
def emptyOpp : Opportunity :=
  ⟨none, none, none, none, none, none, none, none, none, none, none, none,
   none, none, none, none, none, none, none, none, none, none, none, none⟩

/-- The classified failure outcomes of one `SamGovClient::search` call
(src/api.rs lines 171-197): 429 becomes `rateLimited`; connection failures
become `transport`; any other non-2xx becomes `upstream`; a body that does
not decode becomes `decodeFailure`. -/
inductive ApiError where
  | rateLimited
  | transport (msg : String)
  | upstream (status : Nat) (body : String)
  | decodeFailure
deriving DecidableEq

/-- `response.opportunities_data.as_ref().map(|o| o.len()).unwrap_or(0)`. -/
def pageLen (r : ApiResponse) : Nat :=
  (r.opportunities_data.getD []).length

/-- `const PAGE_SIZE: u32 = 1000` (src/api.rs, used by both pagination
loops). -/
def PAGE_SIZE : Nat := 1000

/-- `WindowResult` from src/api.rs. -/
structure WindowResult where
  records_fetched : Nat
  api_calls : Nat
  rate_limited : Bool
deriving DecidableEq

/-! ## Paginate-window: `SamGovClient::search_window` (src/api.rs 259-318)

The oracle maps a requested offset to the outcome of that page request.
The loop state is (offset, total_fetched, api_calls); `fuel` bounds the
number of iterations, `none` meaning the bound was hit. -/

/-- The `loop` of `search_window`: increments `api_calls`, issues the
request at the current offset; a `RateLimited` failure returns an `ok`
result with `rate_limited = true` and the count fetched so far; any other
failure propagates; a page is accumulated and the loop stops when
cumulative fetched ≥ this response's advertised total or the page is
shorter than `PAGE_SIZE`, else the offset advances by `PAGE_SIZE`. -/
def searchWindowLoop (oracle : Nat → Except ApiError ApiResponse) :
    Nat → Nat → Nat → Nat → Option (Except ApiError WindowResult)
  | 0, _, _, _ => none
  | fuel + 1, offset, total_fetched, api_calls =>
    match oracle offset with
    | .error e =>
      if e = ApiError.rateLimited then
        some (.ok ⟨total_fetched, api_calls + 1, true⟩)
      else
        some (.error e)
    | .ok resp =>
      let page_count := pageLen resp
      let total_records := resp.total_records.getD 0
      let tf := total_fetched + page_count
      if total_records ≤ tf ∨ page_count < PAGE_SIZE then
        some (.ok ⟨tf, api_calls + 1, false⟩)
      else
        searchWindowLoop oracle fuel (offset + PAGE_SIZE) tf (api_calls + 1)

/-- `search_window`: run the loop from offset 0 with empty accumulators. -/
def searchWindow (oracle : Nat → Except ApiError ApiResponse) (fuel : Nat) :
    Option (Except ApiError WindowResult) :=
  searchWindowLoop oracle fuel 0 0 0

/-! ## Paginate-all: `SamGovClient::search_all` (src/api.rs 203-255)

`search_all` fixes `total_records` and `first_page_count` from the first
page, then loops `while total_fetched < total_records && first_page_count
> 0`, advancing the offset by `PAGE_SIZE`, breaking when a subsequent page
returns fewer than `PAGE_SIZE` records.  The embedding additionally
records the list of offsets requested, in order. -/

/-- The `while` loop of `search_all`.  `total` and `fpc` are the first
page's advertised total and record count — both fixed for the whole loop,
exactly as in the source. -/
def searchAllLoop (oracle : Nat → Except ApiError ApiResponse)
    (total fpc : Nat) :
    Nat → Nat → Nat → List Nat → Option (Except ApiError (Nat × List Nat))
  | 0, _, _, _ => none
  | fuel + 1, offset, total_fetched, trace =>
    if total_fetched < total ∧ 0 < fpc then
      let offset2 := offset + PAGE_SIZE
      match oracle offset2 with
      | .error e => some (.error e)
      | .ok page =>
        let page_count := pageLen page
        let tf := total_fetched + page_count
        let trace2 := trace ++ [offset2]
        if page_count < PAGE_SIZE then
          some (.ok (tf, trace2))
        else
          searchAllLoop oracle total fpc fuel offset2 tf trace2
    else
      some (.ok (total_fetched, trace))

/-- `search_all`: the first page is requested at offset 0, then the loop
runs.  Returns (first page, total fetched, offsets requested). -/
def searchAll (oracle : Nat → Except ApiError ApiResponse) (fuel : Nat) :
    Option (Except ApiError (ApiResponse × Nat × List Nat)) :=
  match oracle 0 with
  | .error e => some (.error e)
  | .ok first =>
    let total := first.total_records.getD 0
    let fpc := pageLen first
    match searchAllLoop oracle total fpc fuel 0 fpc [0] with
    | none => none
    | some (.error e) => some (.error e)
    | some (.ok (tf, trace)) => some (.ok (first, tf, trace))

/-! ## Persistence store (src/db.rs)

SQLite tables become lists of row structures.  `AUTOINCREMENT` primary
keys become explicit counters carried in the `DB` structure, and the
`datetime(now)` column defaults become an explicit `now : Nat` creation
parameter.  The `resource_links` column stores the JSON rendering of the
link array; since the rendering is injective and no claim depends on its
text, the column is modelled as the array itself. -/

/-- The scalar columns of the `opportunities` table other than the
`notice_id` primary key and the two timestamps — exactly the columns the
`ON CONFLICT` clause of `upsert_opportunity_inner` overwrites. -/
structure OppScalars where
  title : Option String
  solicitation_number : Option String
  department : Option String
  sub_tier : Option String
  office : Option String
  full_parent_path_name : Option String
  organization_type : Option String
  opp_type : Option String
  base_type : Option String
  posted_date : Option String
  response_deadline : Option String
  archive_date : Option String
  naics_code : Option String
  classification_code : Option String
  set_aside : Option String
  set_aside_description : Option String
  description : Option String
  ui_link : Option String
  active : Option String
  resource_links : Option (List String)
  award_amount : Option String
  award_date : Option String
  award_number : Option String
  awardee_name : Option String
  awardee_duns : Option String
  awardee_uei_sam : Option String
  pop_state_code : Option String
  pop_state_name : Option String
  pop_city_code : Option String
  pop_city_name : Option String
  pop_country_code : Option String
  pop_country_name : Option String
  pop_zip : Option String
deriving DecidableEq

/-- One row of the `opportunities` table. -/
structure OppRow where
  notice_id : String
  scalars : OppScalars
  created_at : Nat
  modified_at : Nat
deriving DecidableEq

/-- One row of the `contacts` table. -/
structure ContactRow where
  id : Nat
  notice_id : String
  contact_type : Option String
  full_name : Option String
  email : Option String
  phone : Option String
  title : Option String
  created_at : Nat
  modified_at : Nat
deriving DecidableEq

/-- One row of the `api_call_log` table (the server-assigned `timestamp`
column is omitted: no claim mentions it). -/
structure LogRow where
  id : Nat
  context : String
  posted_from : Option String
  posted_to : Option String
  api_calls : Nat
  records_fetched : Nat
  rate_limited : Bool
  error_message : Option String
deriving DecidableEq

/-- The embedded database: the four tables of `init_schema`, plus the
AUTOINCREMENT counters of `contacts` and `api_call_log`. -/
structure DB where
  opportunities : List OppRow
  contacts : List ContactRow
  next_contact_id : Nat
  sync_state : List (String × String)
  api_call_log : List LogRow
  next_log_id : Nat
deriving DecidableEq

/-- The `sync_state` key `backfill_cursor`. -/
def keyBackfillCursor : String := "backfill_cursor"

/-- The `sync_state` key `last_sync`. -/
def keyLastSync : String := "last_sync"

/-- The call-log context tag `incremental`. -/
def ctxIncremental : String := "incremental"

/-- The call-log context tag `backfill`. -/
def ctxBackfill : String := "backfill"

/-- The flattening of a wire `Opportunity` into the scalar columns bound
by `upsert_opportunity_inner` (src/db.rs 271-314): the award and
place-of-performance fields flatten their nested optionals. -/
def scalarsOf (o : Opportunity) : OppScalars where
  title := o.title
  solicitation_number := o.solicitation_number
  department := o.department
  sub_tier := o.sub_tier
  office := o.office
  full_parent_path_name := o.full_parent_path_name
  organization_type := o.organization_type
  opp_type := o.opp_type
  base_type := o.base_type
  posted_date := o.posted_date
  response_deadline := o.response_deadline
  archive_date := o.archive_date
  naics_code := o.naics_code
  classification_code := o.classification_code
  set_aside := o.set_aside
  set_aside_description := o.set_aside_description
  description := o.description
  ui_link := o.ui_link
  active := o.active
  resource_links := o.resource_links
  award_amount := o.award.bind (·.amount)
  award_date := o.award.bind (·.date)
  award_number := o.award.bind (·.number)
  awardee_name := (o.award.bind (·.awardee)).bind (·.name)
  awardee_duns := (o.award.bind (·.awardee)).bind (·.duns)
  awardee_uei_sam := (o.award.bind (·.awardee)).bind (·.uei_sam)
  pop_state_code := (o.place_of_performance.bind (·.state)).bind (·.code)
  pop_state_name := (o.place_of_performance.bind (·.state)).bind (·.name)
  pop_city_code := (o.place_of_performance.bind (·.city)).bind (·.code)
  pop_city_name := (o.place_of_performance.bind (·.city)).bind (·.name)
  pop_country_code := (o.place_of_performance.bind (·.country)).bind (·.code)
  pop_country_name := (o.place_of_performance.bind (·.country)).bind (·.name)
  pop_zip := o.place_of_performance.bind (·.zip)

/-- The rows inserted by the contact-reinsertion statement of
`upsert_opportunity_inner`, with consecutive AUTOINCREMENT ids starting at
`nid`; returns the rows and the next free id. -/
def mkContactRows (k : String) (now : Nat) :
    Nat → List PointOfContact → List ContactRow × Nat
  | nid, [] => ([], nid)
  | nid, c :: cs =>
    let rest := mkContactRows k now (nid + 1) cs
    (⟨nid, k, c.contact_type, c.full_name, c.email, c.phone, c.title,
      now, now⟩ :: rest.1, rest.2)

/-- `Database::upsert_opportunity_inner` (src/db.rs 265-432): a no-op for
a record with no `notice_id`; otherwise the scalar row is
inserted-or-updated by natural key (the update overwrites every scalar
column and refreshes `modified_at`, leaving `created_at`), then every
contact of that key is deleted and the record's contact list (if any) is
reinserted. -/
def upsert_opportunity_inner (now : Nat) (db : DB) (o : Opportunity) : DB :=
  match o.notice_id with
  | none => db
  | some k =>
    let sc := scalarsOf o
    let opps :=
      if db.opportunities.any (fun r => r.notice_id == k) then
        db.opportunities.map (fun r =>
          if r.notice_id == k then
            { r with scalars := sc, modified_at := now }
          else r)
      else
        db.opportunities ++ [⟨k, sc, now, now⟩]
    let kept := db.contacts.filter (fun r => r.notice_id != k)
    let fresh := mkContactRows k now db.next_contact_id
      (o.point_of_contact.getD [])
    { db with
        opportunities := opps
        contacts := kept ++ fresh.1
        next_contact_id := fresh.2 }

/-- `Database::upsert_opportunities` (src/db.rs 186-199): a response with
no record array is a no-op; otherwise every record is upserted in order. -/
def upsert_opportunities (now : Nat) (db : DB) (resp : ApiResponse) : DB :=
  match resp.opportunities_data with
  | none => db
  | some os => os.foldl (upsert_opportunity_inner now) db

/-- `Database::get_sync_state` (src/db.rs 141-152). -/
def get_sync_state (db : DB) (key : String) : Option String :=
  (db.sync_state.find? (fun p => p.1 == key)).map (·.2)

/-- `Database::set_sync_state` (src/db.rs 154-163): insert-or-replace by
key. -/
def set_sync_state (db : DB) (key value : String) : DB :=
  { db with
      sync_state :=
        if db.sync_state.any (fun p => p.1 == key) then
          db.sync_state.map (fun p => if p.1 == key then (key, value) else p)
        else
          db.sync_state ++ [(key, value)] }

/-- `Database::get_earliest_posted_date` (src/db.rs 165-177): the minimum
non-null `posted_date` string over all stored opportunities. -/
def get_earliest_posted_date (db : DB) : Option String :=
  (db.opportunities.filterMap (fun r => r.scalars.posted_date)).min?

/-- `Database::log_api_call` (src/db.rs 202-237): append one audit row,
then delete every row whose id is not among the 200 largest.  Rows are
kept in insertion order and ids are assigned by an increasing counter, so
the 200 largest ids are exactly the last 200 rows of the list. -/
def log_api_call (db : DB) (ctx : String) (pf pt : Option String)
    (calls recs : Nat) (rl : Bool) (err : Option String) : DB :=
  let row : LogRow := ⟨db.next_log_id, ctx, pf, pt, calls, recs, rl, err⟩
  let appended := db.api_call_log ++ [row]
  { db with
      api_call_log := appended.drop (appended.length - 200)
      next_log_id := db.next_log_id + 1 }

/-- The natural keys currently stored, in row order. -/
def oppKeys (db : DB) : List String :=
  db.opportunities.map (·.notice_id)

/-- The primary-key invariant of the `opportunities` table: at most one
row per natural key. -/
def oppKeysNodup (db : DB) : Prop :=
  (oppKeys db).Nodup

instance (db : DB) : Decidable (oppKeysNodup db) := by
  unfold oppKeysNodup; infer_instance

/-- The contact payload of a stored contact row — the five wire fields,
forgetting the synthetic id and the timestamps. -/
def contactPayload (r : ContactRow) : PointOfContact :=
  ⟨r.contact_type, r.full_name, r.email, r.phone, r.title⟩

/-! ## Sync scheduler: `run_sync` (src/sync.rs)

`run_sync` drives `search_window` once for the incremental window and then
repeatedly for backfill windows.  The embedding abstracts one whole
`search_window` execution into a `client` function from the formatted
`(from, to)` strings to a `WindowOutcome`: the pages it delivered to the
per-page callback, the API calls it consumed, and whether it ended
rate-limited (a non-rate-limit failure of any page is the `Except.error`
case, which `run_sync` propagates via `?`).  `records_fetched` of a
window is the sum of its page record counts, as in `search_window`.

Dates (`chrono::NaiveDate`) are embedded as `Int` day numbers;
`%m/%d/%Y` rendering and `parse_date` are abstracted into an explicit
`DateCodec` pair carried as a parameter, since no claim depends on the
text of a formatted date.  Because the on-disk database outlives a failed
run, the loop and `run_sync` return the database state alongside the
error on the propagating path. -/

/-- `const BACKFILL_WINDOW_DAYS: i64 = 90` (src/sync.rs). -/
def BACKFILL_WINDOW_DAYS : Int := 90

/-- `const INCREMENTAL_DAYS: i64 = 3` (src/sync.rs). -/
def INCREMENTAL_DAYS : Int := 3

/-- One whole `search_window` execution as observed by `run_sync`. -/
structure WindowOutcome where
  pages : List ApiResponse
  api_calls : Nat
  rate_limited : Bool

/-- The records fetched by a window: the sum of its page record counts,
as accumulated by `search_window`. -/
def WindowOutcome.records (w : WindowOutcome) : Nat :=
  (w.pages.map pageLen).sum

/-- The `%m/%d/%Y` date rendering (`DATE_FMT`) and `parse_date` of
src/sync.rs, abstracted: `fmt` renders a day number, `parse` reads one
back (`none` embeds the `Err` of `parse_date`). -/
structure DateCodec where
  fmt : Int → String
  parse : String → Option Int

/-- A failure that aborts `run_sync`: a propagated fetch failure or a
`parse_date` failure on a stored date string. -/
inductive SyncErr where
  | api (e : ApiError)
  | badDate (s : String)
deriving DecidableEq

/-- `SyncSummary` from src/sync.rs. -/
structure SyncSummary where
  api_calls_used : Nat
  records_synced : Nat
  windows_completed : Nat
  rate_limited : Bool
  backfill_cursor : Option String
deriving DecidableEq

/-- The mutable state of `run_sync` while the backfill loop runs: the
database, the cursor, the four running counters, and the list of
backfill windows announced so far (the `Backfill window: from to to`
progress lines, one per iteration, dry-run included). -/
structure BackfillState where
  db : DB
  cursor : Int
  used : Nat
  synced : Nat
  windows : Nat
  rate_limited : Bool
  wins : List (String × String)

/-- Apply the per-page upsert callback of `run_sync` to every page a
window delivered (`db.upsert_opportunities(page)`; its errors are logged
and swallowed in the source, and the embedded store is total). -/
def applyPages (now : Nat) (db : DB) (pages : List ApiResponse) : DB :=
  pages.foldl (upsert_opportunities now) db

/-- Backfill cursor resolution (src/sync.rs 95-109), in priority order:
an explicit `--from` override forces `today - INCREMENTAL_DAYS`; else the
persisted `backfill_cursor` is parsed; else the earliest stored posted
date is parsed; else `today - INCREMENTAL_DAYS`. -/
def resolveCursor (codec : DateCodec) (db : DB) (fromOverride : Option String)
    (today : Int) : Except SyncErr Int :=
  match fromOverride with
  | some _ => .ok (today - INCREMENTAL_DAYS)
  | none =>
    match get_sync_state db keyBackfillCursor with
    | some s =>
      match codec.parse s with
      | some d => .ok d
      | none => .error (.badDate s)
    | none =>
      match get_earliest_posted_date db with
      | some s =>
        match codec.parse s with
        | some d => .ok d
        | none => .error (.badDate s)
      | none => .ok (today - INCREMENTAL_DAYS)

/-- The backfill `while` loop (src/sync.rs 114-178).  Each pass: stop if
the remaining budget admits fewer than 2 more calls; stop if the `--from`
floor is reached; announce the 90-day window `[cursor - 90, cursor]`; in
dry-run count it as one estimated call and advance the cursor without
fetching; otherwise fetch it, upsert its pages, write one `backfill`
audit row, add its counters, advance the cursor and durably persist the
new cursor, then stop if it was rate-limited.  A propagating fetch
failure returns the database as already written. -/
def backfillLoop (client : String → String → Except ApiError WindowOutcome)
    (codec : DateCodec) (now : Nat) (dry : Bool) (floor : Option Int)
    (maxCalls : Nat) :
    Nat → BackfillState → Option (Except (SyncErr × DB) BackfillState)
  | 0, _ => none
  | fuel + 1, st =>
    if st.used + 2 ≤ maxCalls then
      if (match floor with
          | some f => decide (st.cursor ≤ f)
          | none => false) then
        some (.ok st)
      else
        let wFrom := st.cursor - BACKFILL_WINDOW_DAYS
        let fromS := codec.fmt wFrom
        let toS := codec.fmt st.cursor
        let st1 := { st with wins := st.wins ++ [(fromS, toS)] }
        if dry then
          backfillLoop client codec now dry floor maxCalls fuel
            { st1 with
                windows := st1.windows + 1
                used := st1.used + 1
                cursor := wFrom }
        else
          match client fromS toS with
          | .error e => some (.error (.api e, st1.db))
          | .ok res =>
            let db1 := applyPages now st1.db res.pages
            let db2 := log_api_call db1 ctxBackfill (some fromS) (some toS)
              res.api_calls res.records res.rate_limited none
            let db3 := set_sync_state db2 keyBackfillCursor (codec.fmt wFrom)
            let st2 : BackfillState :=
              { db := db3
                cursor := wFrom
                used := st1.used + res.api_calls
                synced := st1.synced + res.records
                windows := st1.windows + 1
                rate_limited := st1.rate_limited
                wins := st1.wins }
            if res.rate_limited then
              some (.ok { st2 with rate_limited := true })
            else
              backfillLoop client codec now dry floor maxCalls fuel st2
    else
      some (.ok st)

/-- `run_sync` (src/sync.rs 19-194).  Returns the summary, the final
database, and the announced backfill windows; `Except.error` carries the
database as left on disk by a propagating failure; `none` means the fuel
bound on the backfill loop was hit. -/
def run_sync (client : String → String → Except ApiError WindowOutcome)
    (codec : DateCodec) (today : Int) (now : Nat) (maxCalls : Nat)
    (dry : Bool) (fromOverride : Option String) (db0 : DB) (fuel : Nat) :
    Option (Except (SyncErr × DB) (SyncSummary × DB × List (String × String))) :=
  let incrFrom := codec.fmt (today - INCREMENTAL_DAYS)
  let incrTo := codec.fmt today
  -- Phase 1: incremental sync of the last INCREMENTAL_DAYS days.
  let phase1 : Except (SyncErr × DB)
      (Option (SyncSummary × DB) × DB × Nat × Nat × Nat) :=
    if dry then .ok (none, db0, 0, 0, 0)
    else
      match client incrFrom incrTo with
      | .error e => .error (.api e, db0)
      | .ok res =>
        let db1 := applyPages now db0 res.pages
        let db2 := log_api_call db1 ctxIncremental (some incrFrom)
          (some incrTo) res.api_calls res.records res.rate_limited none
        if res.rate_limited then
          let db3 := set_sync_state db2 keyLastSync incrTo
          .ok (some (⟨res.api_calls, res.records, 1, true,
            get_sync_state db3 keyBackfillCursor⟩, db3), db3,
            res.api_calls, res.records, 1)
        else
          .ok (none, db2, res.api_calls, res.records, 1)
  match phase1 with
  | .error e => some (.error e)
  | .ok (some early, _, _, _, _) => some (.ok (early.1, early.2, []))
  | .ok (none, db2, used, synced, windows) =>
    -- Phase 2: backfill with the remaining budget.
    let afterLoop : Option (Except (SyncErr × DB) BackfillState) :=
      if maxCalls - used < 2 then
        some (.ok ⟨db2, 0, used, synced, windows, false, []⟩)
      else
        match resolveCursor codec db2 fromOverride today with
        | .error e => some (.error (e, db2))
        | .ok cursor0 =>
          match (match fromOverride with
                 | some s =>
                   match codec.parse s with
                   | some d => .ok (some d)
                   | none => .error (SyncErr.badDate s)
                 | none => .ok none : Except SyncErr (Option Int)) with
          | .error e => some (.error (e, db2))
          | .ok floor =>
            backfillLoop client codec now dry floor maxCalls fuel
              ⟨db2, cursor0, used, synced, windows, false, []⟩
    match afterLoop with
    | none => none
    | some (.error e) => some (.error e)
    | some (.ok st) =>
      let dbF := if dry then st.db else set_sync_state st.db keyLastSync incrTo
      some (.ok (⟨st.used, st.synced, st.windows, st.rate_limited,
        get_sync_state dbF keyBackfillCursor⟩, dbF, st.wins))

/-! ## Credential redaction in error messages (src/api.rs 171-191)

`SamGovClient::search` builds a transport error by appending, to the
fixed text `Failed to connect to SAM.gov API: `, the transport error
text with every occurrence of the API key replaced by `[REDACTED]`; and
an upstream error by interpolating the rendered status and the
credential-redacted response body into
`SAM.gov API returned <status>: <body>` (the status line is not
redacted).  Strings are embedded as `List Char`; `replaceAll` is Rust's
`str::replace` — left-to-right, non-overlapping, every occurrence — for a
non-empty pattern (the source never calls it with an empty key pattern on
this path unless the environment variable itself is empty). -/

/-- Fuel-indexed left-to-right non-overlapping replacement; the fuel
bounds the scan length (instantiated with the scanned string's length, it
never runs out for a non-empty pattern). -/
def replaceAllFuel (key rep : List Char) : Nat → List Char → List Char
  | 0, s => s
  | _ + 1, [] => []
  | fuel + 1, c :: rest =>
    if key ≠ [] ∧ key.isPrefixOf (c :: rest) = true then
      rep ++ replaceAllFuel key rep fuel ((c :: rest).drop key.length)
    else
      c :: replaceAllFuel key rep fuel rest

/-- Left-to-right non-overlapping replacement of every occurrence of
`key` by `rep`, as performed by `str::replace` for a non-empty `key`. -/
def replaceAll (key rep s : List Char) : List Char :=
  replaceAllFuel key rep s.length s

/-- `key` occurs as a contiguous run inside `s`. -/
def containsSeq (key : List Char) : List Char → Bool
  | [] => key.isEmpty
  | c :: rest => key.isPrefixOf (c :: rest) || containsSeq key rest

/-- The redaction marker `[REDACTED]`. -/
def redactionMarker : List Char := "[REDACTED]".toList

/-- The fixed scaffolding of the transport error message. -/
def transportScaffold : List Char := "Failed to connect to SAM.gov API: ".toList

/-- The fixed scaffolding of the upstream error message around a rendered
`status`, which is interpolated unredacted. -/
def upstreamScaffold (status : List Char) : List Char :=
  "SAM.gov API returned ".toList ++ status ++ ": ".toList

/-- The surfaced transport error message for credential `key` and raw
transport error text `raw`. -/
def transportMsg (key raw : List Char) : List Char :=
  transportScaffold ++ replaceAll key redactionMarker raw

/-- The surfaced upstream (non-2xx, non-429) error message for credential
`key`, rendered status line `status`, and response body `body`. -/
def upstreamMsg (key status body : List Char) : List Char :=
  upstreamScaffold status ++ replaceAll key redactionMarker body

/-! ## Concrete fixtures used by witnesses and counterexamples -/

/-- A raw transport error text. -/
def msgTimeout : String := "connection timed out"

/-- An upstream oracle that always answers 429. -/
def oracleRL : Nat → Except ApiError ApiResponse :=
  fun _ => .error .rateLimited

/-- An upstream oracle that always fails at the transport layer. -/
def oracleTransport : Nat → Except ApiError ApiResponse :=
  fun _ => .error (.transport msgTimeout)

/-- A completely full page (`PAGE_SIZE` records) with a null
`totalRecords`. -/
def fullPageNoTotal : ApiResponse :=
  ⟨none, some (List.replicate PAGE_SIZE emptyOpp)⟩

/-- An upstream oracle whose every response is a full page advertising no
total. -/
def oracleNoTotal : Nat → Except ApiError ApiResponse :=
  fun _ => .ok fullPageNoTotal

/-- A first page with one record while 2000 are advertised. -/
def shortFirstPage : ApiResponse := ⟨some 2000, some [emptyOpp]⟩

/-- An empty follow-up page still advertising 2000 records. -/
def emptyFollowUpPage : ApiResponse := ⟨some 2000, some []⟩

/-- An upstream oracle returning the short first page at offset 0 and the
empty page elsewhere. -/
def oracleShortFirst : Nat → Except ApiError ApiResponse :=
  fun off => if off == 0 then .ok shortFirstPage else .ok emptyFollowUpPage

/-- An upstream oracle whose every response is the empty page. -/
def oracleEmptyFirst : Nat → Except ApiError ApiResponse :=
  fun _ => .ok emptyFollowUpPage

/-- An empty database. -/
def dbEmpty : DB := ⟨[], [], 1, [], [], 1⟩

/-- A concrete notice id. -/
def nidOne : String := "N-001"

/-- A first title. -/
def titleA : String := "Original Title"

/-- A second title. -/
def titleB : String := "Updated Title"

/-- A contact name. -/
def nameAlice : String := "Alice"

/-- Another contact name. -/
def nameBob : String := "Bob"

/-- A third contact name. -/
def nameCharlie : String := "Charlie"

/-- A record with natural key `nidOne`, title `titleA` and two
contacts. -/
def oppA : Opportunity :=
  { emptyOpp with
      notice_id := some nidOne
      title := some titleA
      point_of_contact := some
        [⟨none, some nameAlice, none, none, none⟩,
         ⟨none, some nameBob, none, none, none⟩] }

/-- The same key re-ingested with title `titleB` and a single different
contact. -/
def oppB : Opportunity :=
  { emptyOpp with
      notice_id := some nidOne
      title := some titleB
      point_of_contact := some [⟨none, some nameCharlie, none, none, none⟩] }

/-- `dbEmpty` after upserting `oppA` at time 5. -/
def dbAfterA : DB := upsert_opportunity_inner 5 dbEmpty oppA

/-- Digits-only reading of a natural number, used by the witness codec. -/
def natFromDigits (cs : List Char) : Option Nat :=
  if cs = [] then none
  else if cs.all (·.isDigit) then
    some (cs.foldl (fun a c => a * 10 + (c.toNat - 48)) 0)
  else none

/-- Reading a day number back from its decimal rendering. -/
def parseDay (s : String) : Option Int :=
  match s.toList with
  | '-' :: cs => (natFromDigits cs).map (fun n => -(n : Int))
  | cs => (natFromDigits cs).map (fun n => (n : Int))

/-- A concrete date codec for witnesses: day numbers rendered by
`toString` and read back by `parseDay`. -/
def codecInt : DateCodec := ⟨fun d => toString d, parseDay⟩

/-- A window client that is immediately rate-limited (no pages, one
call). -/
def clientRLWin : String → String → Except ApiError WindowOutcome :=
  fun _ _ => .ok ⟨[], 1, true⟩

/-- A window client that always succeeds with an empty single-call
window. -/
def clientOK : String → String → Except ApiError WindowOutcome :=
  fun _ _ => .ok ⟨[], 1, false⟩

/-- A backfill start state at cursor day 1000 over the empty store. -/
def stStart : BackfillState := ⟨dbEmpty, 1000, 0, 0, 0, false, []⟩

/-- A stored cursor string for day 730. -/
def cursorStr : String := "730"

/-- A store with a persisted `backfill_cursor` of day 730. -/
def dbCursor : DB := set_sync_state dbEmpty keyBackfillCursor cursorStr

/-- The credential `SAM`, for the counterexample. -/
def keySAM : List Char := "SAM".toList

/-- A rendered status line. -/
def statusLine : List Char := "500 Internal Server Error".toList

/-- A response body. -/
def bodyDenied : List Char := "request denied".toList

/-- A realistic credential: no space, no bracket, absent from the
message scaffolding and the redaction marker. -/
def keyGood : List Char := "secretA1".toList

/-- A transport error text that embeds the credential. -/
def rawLeaky : List Char := "api key secretA1 rejected".toList

/-! ## Theorems -/

/-- One step of the `search_window` loop with a successful page: the loop
stops with the accumulated count exactly when cumulative fetched reaches
the response's advertised total or the page is shorter than `PAGE_SIZE`;
otherwise it continues at `offset + PAGE_SIZE`. -/
theorem windowLoop_step (oracle : Nat → Except ApiError ApiResponse)
    (fuel offset tf calls : Nat) (resp : ApiResponse)
    (hor : oracle offset = .ok resp) :
    (resp.total_records.getD 0 ≤ tf + pageLen resp ∨ pageLen resp < PAGE_SIZE →
      searchWindowLoop oracle (fuel + 1) offset tf calls =
        some (.ok ⟨tf + pageLen resp, calls + 1, false⟩)) ∧
    (¬ (resp.total_records.getD 0 ≤ tf + pageLen resp ∨ pageLen resp < PAGE_SIZE) →
      searchWindowLoop oracle (fuel + 1) offset tf calls =
        searchWindowLoop oracle fuel (offset + PAGE_SIZE) (tf + pageLen resp)
          (calls + 1)) := by
  constructor <;> intro hc <;> simp [searchWindowLoop, hor, hc]

/-- A `search_window` run that ends without the rate-limit flag stopped
at a page satisfying the stop rule: its advertised total was covered by
the cumulative count, or it was shorter than `PAGE_SIZE`. -/
theorem windowLoop_ok_stop (oracle : Nat → Except ApiError ApiResponse) :
    ∀ (fuel offset tf calls : Nat) (w : WindowResult),
      searchWindowLoop oracle fuel offset tf calls = some (.ok w) →
      w.rate_limited = false →
      ∃ offset2 resp, oracle offset2 = .ok resp ∧
        (resp.total_records.getD 0 ≤ w.records_fetched ∨
          pageLen resp < PAGE_SIZE) := by
  intro fuel
  induction fuel with
  | zero => intro offset tf calls w h; simp [searchWindowLoop] at h
  | succ n ih =>
    intro offset tf calls w h hrl
    rw [searchWindowLoop] at h
    cases hor : oracle offset with
    | error e =>
      rw [hor] at h
      by_cases he : e = ApiError.rateLimited
      · simp [he] at h
        rw [← h] at hrl
        simp at hrl
      · simp [he] at h
    | ok resp =>
      rw [hor] at h
      simp only [] at h
      by_cases hc : resp.total_records.getD 0 ≤ tf + pageLen resp ∨
          pageLen resp < PAGE_SIZE
      · simp only [if_pos hc] at h
        refine ⟨offset, resp, hor, ?_⟩
        cases h
        exact hc
      · simp only [if_neg hc] at h
        exact ih _ _ _ _ h hrl

/-- `search_window` never surfaces the rate-limit condition as an error:
no run of its loop returns `Except.error ApiError.rateLimited`. -/
theorem windowLoop_no_rl_error (oracle : Nat → Except ApiError ApiResponse) :
    ∀ (fuel offset tf calls : Nat) (e : ApiError),
      searchWindowLoop oracle fuel offset tf calls = some (.error e) →
      e ≠ ApiError.rateLimited := by
  intro fuel
  induction fuel with
  | zero => intro offset tf calls e h; simp [searchWindowLoop] at h
  | succ n ih =>
    intro offset tf calls e h
    rw [searchWindowLoop] at h
    cases hor : oracle offset with
    | error e2 =>
      rw [hor] at h
      by_cases he : e2 = ApiError.rateLimited
      · simp [he] at h
      · simp [he] at h
        subst h
        exact he
    | ok resp =>
      rw [hor] at h
      simp only [] at h
      by_cases hc : resp.total_records.getD 0 ≤ tf + pageLen resp ∨
          pageLen resp < PAGE_SIZE
      · simp only [if_pos hc] at h
        simp at h
      · simp only [if_neg hc] at h
        exact ih _ _ _ _ h

/-- Claim C1: if a page request of the `search_window` loop fails
rate-limited, the operation returns a successful `WindowResult` carrying
`rate_limited = true` and exactly the record count accumulated so far
(and counting that call); any other page failure propagates as that very
error; and no run of the loop ever surfaces the rate-limit condition as
an error. -/
theorem searchWindow_rl_result_other_propagates
    (oracle : Nat → Except ApiError ApiResponse)
    (fuel offset tf calls : Nat) :
    (oracle offset = .error ApiError.rateLimited →
      searchWindowLoop oracle (fuel + 1) offset tf calls =
        some (.ok ⟨tf, calls + 1, true⟩)) ∧
    (∀ e, oracle offset = .error e → e ≠ ApiError.rateLimited →
      searchWindowLoop oracle (fuel + 1) offset tf calls =
        some (.error e)) ∧
    (∀ fuel2 e, searchWindowLoop oracle fuel2 offset tf calls =
        some (.error e) → e ≠ ApiError.rateLimited) := by
  refine ⟨?_, ?_, ?_⟩
  · intro h; simp [searchWindowLoop, h]
  · intro e h hne; simp [searchWindowLoop, h, hne]
  · intro fuel2 e h
    exact windowLoop_no_rl_error oracle fuel2 offset tf calls e h

/-- Witness for C1 at concrete inputs: a rate-limited first page gives a
successful empty result with the flag set; a transport failure
propagates. -/
theorem searchWindow_rl_result_other_propagates_witness :
    oracleRL 0 = .error ApiError.rateLimited ∧
    searchWindowLoop oracleRL 4 0 0 0 = some (.ok ⟨0, 1, true⟩) ∧
    searchWindowLoop oracleTransport 4 0 0 0 =
      some (.error (.transport msgTimeout)) :=
  ⟨rfl,
   (searchWindow_rl_result_other_propagates oracleRL 3 0 0 0).1 rfl,
   (searchWindow_rl_result_other_propagates oracleTransport 3 0 0 0).2.1
     (.transport msgTimeout) rfl (by decide)⟩

/-- Claim C10: when a successful response advertises no total
(`totalRecords` null), both pagination loops treat the total as zero and
stop right after that page — `search_all` requests only offset 0 even for
a completely full first page, and the `search_window` loop stops at the
current page with the accumulated count. -/
theorem null_total_stops_after_first_page :
    (∀ (oracle : Nat → Except ApiError ApiResponse) (fuel : Nat)
        (r : ApiResponse), oracle 0 = .ok r → r.total_records = none →
      searchAll oracle (fuel + 1) = some (.ok (r, pageLen r, [0]))) ∧
    (∀ (oracle : Nat → Except ApiError ApiResponse)
        (fuel offset tf calls : Nat) (r : ApiResponse),
        oracle offset = .ok r → r.total_records = none →
      searchWindowLoop oracle (fuel + 1) offset tf calls =
        some (.ok ⟨tf + pageLen r, calls + 1, false⟩)) := by
  constructor
  · intro oracle fuel r hor htot
    simp [searchAll, hor, htot, searchAllLoop]
  · intro oracle fuel offset tf calls r hor htot
    simp [searchWindowLoop, hor, htot]

/-- Witness for C10 with a completely full first page (`PAGE_SIZE`
records) and a null total: exactly one request is made. -/
theorem null_total_stops_after_first_page_witness :
    oracleNoTotal 0 = .ok fullPageNoTotal ∧
    fullPageNoTotal.total_records = none ∧
    pageLen fullPageNoTotal = PAGE_SIZE ∧
    searchAll oracleNoTotal 3 = some (.ok (fullPageNoTotal,
      pageLen fullPageNoTotal, [0])) ∧
    searchWindowLoop oracleNoTotal 3 0 0 0 =
      some (.ok ⟨0 + pageLen fullPageNoTotal, 0 + 1, false⟩) :=
  ⟨rfl, rfl, by simp [fullPageNoTotal, pageLen],
   (null_total_stops_after_first_page).1 oracleNoTotal 2 fullPageNoTotal
     rfl rfl,
   (null_total_stops_after_first_page).2 oracleNoTotal 2 0 0 0
     fullPageNoTotal rfl rfl⟩

/-- Claim C5 counterexample: against `oracleShortFirst` the first page
returns 1 record — fewer than `PAGE_SIZE` — while 2000 are advertised, so
the claimed stop rule ("stops when a page returns fewer records than the
page size, whichever comes first") requires stopping after offset 0; yet
`search_all` issues a second request: its requested-offset trace is
`[0, PAGE_SIZE]`. -/
theorem searchAll_short_first_page_cex :
    pageLen shortFirstPage < PAGE_SIZE ∧
    pageLen shortFirstPage < shortFirstPage.total_records.getD 0 ∧
    searchAll oracleShortFirst 5 =
      some (.ok (shortFirstPage, 1, [0, PAGE_SIZE])) := by
  refine ⟨by decide, by decide, ?_⟩
  rfl

/-- Claim C5 (amended): `search_window` stops exactly per the claimed
rule — at a page it stops iff cumulative fetched reaches the advertised
total or the page is short, else it requests `offset + PAGE_SIZE`, and a
non-rate-limited run always ends at a page satisfying the rule.
`search_all`, however, applies the short-page rule only to pages after
the first: after the first page it stops iff the first page was empty or
already covered the advertised total, and otherwise requests offset
`PAGE_SIZE` even when the first page was shorter than `PAGE_SIZE`. -/
theorem pagination_stop_rule_amended :
    (∀ (oracle : Nat → Except ApiError ApiResponse)
        (fuel offset tf calls : Nat) (resp : ApiResponse),
        oracle offset = .ok resp →
      (resp.total_records.getD 0 ≤ tf + pageLen resp ∨
          pageLen resp < PAGE_SIZE →
        searchWindowLoop oracle (fuel + 1) offset tf calls =
          some (.ok ⟨tf + pageLen resp, calls + 1, false⟩)) ∧
      (¬ (resp.total_records.getD 0 ≤ tf + pageLen resp ∨
          pageLen resp < PAGE_SIZE) →
        searchWindowLoop oracle (fuel + 1) offset tf calls =
          searchWindowLoop oracle fuel (offset + PAGE_SIZE)
            (tf + pageLen resp) (calls + 1))) ∧
    (∀ (oracle : Nat → Except ApiError ApiResponse)
        (fuel offset tf calls : Nat) (w : WindowResult),
        searchWindowLoop oracle fuel offset tf calls = some (.ok w) →
        w.rate_limited = false →
      ∃ offset2 resp, oracle offset2 = .ok resp ∧
        (resp.total_records.getD 0 ≤ w.records_fetched ∨
          pageLen resp < PAGE_SIZE)) ∧
    (∀ (oracle : Nat → Except ApiError ApiResponse) (fuel : Nat)
        (first : ApiResponse), oracle 0 = .ok first →
        pageLen first = 0 ∨ first.total_records.getD 0 ≤ pageLen first →
      searchAll oracle (fuel + 1) =
        some (.ok (first, pageLen first, [0]))) ∧
    (∀ (oracle : Nat → Except ApiError ApiResponse) (fuel : Nat)
        (first p2 : ApiResponse), oracle 0 = .ok first →
        oracle PAGE_SIZE = .ok p2 →
        0 < pageLen first → pageLen first < first.total_records.getD 0 →
        pageLen p2 < PAGE_SIZE →
      searchAll oracle (fuel + 1) =
        some (.ok (first, pageLen first + pageLen p2, [0, PAGE_SIZE]))) := by
  refine ⟨?_, ?_, ?_, ?_⟩
  · intro oracle fuel offset tf calls resp hor
    exact windowLoop_step oracle fuel offset tf calls resp hor
  · intro oracle fuel offset tf calls w h hrl
    exact windowLoop_ok_stop oracle fuel offset tf calls w h hrl
  · intro oracle fuel first hor hstop
    have hcond : ¬ (pageLen first < first.total_records.getD 0 ∧
        0 < pageLen first) := by
      rcases hstop with h0 | hcov
      · intro hc; omega
      · intro hc; omega
    simp [searchAll, hor, searchAllLoop, hcond]
  · intro oracle fuel first p2 hor hor2 hpos huncov hshort
    have hcond : pageLen first < first.total_records.getD 0 ∧
        0 < pageLen first := ⟨huncov, hpos⟩
    simp [searchAll, hor, searchAllLoop, hcond, hor2, hshort]

/-- Witness for the amended C5 at concrete inputs: a first page covering
its advertised total stops after offset 0; the short-uncovered first page
of the counterexample oracle is followed by a request at offset
`PAGE_SIZE`. -/
theorem pagination_stop_rule_amended_witness :
    oracleEmptyFirst 0 = .ok emptyFollowUpPage ∧
    pageLen emptyFollowUpPage = 0 ∧
    searchAll oracleEmptyFirst 3 =
      some (.ok (emptyFollowUpPage, pageLen emptyFollowUpPage, [0])) ∧
    searchAll oracleShortFirst 4 =
      some (.ok (shortFirstPage,
        pageLen shortFirstPage + pageLen emptyFollowUpPage,
        [0, PAGE_SIZE])) :=
  ⟨rfl, rfl,
   pagination_stop_rule_amended.2.2.1 oracleEmptyFirst 2 emptyFollowUpPage
     rfl (Or.inl rfl),
   pagination_stop_rule_amended.2.2.2 oracleShortFirst 3 shortFirstPage
     emptyFollowUpPage rfl rfl (by decide) (by decide) (by decide)⟩

/-- The scalar-overwriting update of the conflict clause leaves the
filtered-by-key rows as the update of the filtered rows. -/
theorem filterKey_map_upd (l : List OppRow) (k : String) (sc : OppScalars)
    (now : Nat) :
    (l.map fun r => if r.notice_id == k then
        { r with scalars := sc, modified_at := now } else r).filter
      (fun r => r.notice_id == k) =
    (l.filter (fun r => r.notice_id == k)).map
      (fun r => { r with scalars := sc, modified_at := now }) := by
  induction l with
  | nil => rfl
  | cons r l ih =>
    by_cases hb : r.notice_id = k
    · simp [hb]
      simpa using ih
    · simp [hb]
      simpa using ih

/-- The scalar-overwriting update does not change the stored key list. -/
theorem keys_map_upd (l : List OppRow) (k : String) (sc : OppScalars)
    (now : Nat) :
    (l.map fun r => if r.notice_id == k then
        { r with scalars := sc, modified_at := now } else r).map
      (·.notice_id) = l.map (·.notice_id) := by
  induction l with
  | nil => rfl
  | cons r l ih =>
    by_cases hb : r.notice_id = k
    · simp [hb]
      simpa using ih
    · simp [hb]
      simpa using ih

/-- Under the primary-key invariant, filtering by a key yields the found
row, or nothing. -/
theorem filter_key_of_nodup (l : List OppRow) (k : String)
    (h : (l.map (·.notice_id)).Nodup) :
    l.filter (fun r => r.notice_id == k) =
      (match l.find? (fun r => r.notice_id == k) with
       | some r => [r]
       | none => []) := by
  induction l with
  | nil => rfl
  | cons r l ih =>
    simp only [List.map_cons, List.nodup_cons] at h
    by_cases hb : (r.notice_id == k) = true
    · have hk : r.notice_id = k := eq_of_beq hb
      have : l.filter (fun r => r.notice_id == k) = [] := by
        refine List.filter_eq_nil_iff.mpr ?_
        intro a ha hcon
        exact h.1 (by
          rw [hk, ← eq_of_beq hcon]
          exact List.mem_map_of_mem (·.notice_id) ha)
      simp [List.filter_cons, List.find?_cons, hb, this]
    · simp [List.filter_cons, List.find?_cons, hb, ih h.2]

/-- Claim C3: `upsert_opportunity_inner` is a no-op for a record without
a natural key; for a record with key `k`, under the primary-key
invariant, afterwards exactly one row with key `k` is stored, carrying
the record's current scalar values, `modified_at` refreshed to `now`,
and `created_at` equal to the pre-existing row's creation timestamp (or
`now` if the key is new); the invariant is preserved, so the
characterization applies to every re-upsert. -/
theorem upsert_exactly_one_row (db : DB) (o : Opportunity) (now : Nat) :
    (o.notice_id = none → upsert_opportunity_inner now db o = db) ∧
    (∀ k, o.notice_id = some k → oppKeysNodup db →
      (upsert_opportunity_inner now db o).opportunities.filter
          (fun r => r.notice_id == k) =
        [{ notice_id := k, scalars := scalarsOf o,
           created_at :=
             match db.opportunities.find? (fun r => r.notice_id == k) with
             | some r => r.created_at
             | none => now,
           modified_at := now }] ∧
      oppKeysNodup (upsert_opportunity_inner now db o)) := by
  constructor
  · intro h
    simp [upsert_opportunity_inner, h]
  · intro k hk hnd
    unfold oppKeysNodup oppKeys at hnd ⊢
    by_cases hex : db.opportunities.any (fun r => r.notice_id == k) = true
    · obtain ⟨r0, hr0mem, hr0p⟩ := List.any_eq_true.mp hex
      cases hfind : db.opportunities.find? (fun r => r.notice_id == k) with
      | none =>
        have := List.find?_eq_none.mp hfind r0 hr0mem
        simp [hr0p] at this
      | some r1 =>
        have hp := List.find?_some hfind
        have hkey : r1.notice_id = k := eq_of_beq hp
        constructor
        · simp only [upsert_opportunity_inner, hk, hex, if_true]
          rw [filterKey_map_upd, filter_key_of_nodup _ _ hnd, hfind]
          simp [hkey]
        · simp only [upsert_opportunity_inner, hk, hex, if_true]
          rw [keys_map_upd]
          exact hnd
    · have hany : db.opportunities.any (fun r => r.notice_id == k) = false :=
        Bool.not_eq_true _ |>.mp hex
      have hnotmem : ∀ x ∈ db.opportunities, ¬ (x.notice_id == k) = true := by
        intro x hx
        exact fun hc => hex (List.any_eq_true.mpr ⟨x, hx, hc⟩)
      have hfind : db.opportunities.find? (fun r => r.notice_id == k) = none :=
        List.find?_eq_none.mpr hnotmem
      constructor
      · simp only [upsert_opportunity_inner, hk, hany, if_false,
          Bool.false_eq_true]
        rw [List.filter_append, hfind]
        have hnil : db.opportunities.filter (fun r => r.notice_id == k) = [] :=
          List.filter_eq_nil_iff.mpr hnotmem
        rw [hnil]
        simp
      · simp only [upsert_opportunity_inner, hk, hany, if_false,
          Bool.false_eq_true]
        rw [List.map_append]
        refine List.Nodup.append hnd (by simp) ?_
        intro a ha hb
        simp only [List.map_cons, List.map_nil, List.mem_singleton] at hb
        obtain ⟨x, hx, hxa⟩ := List.mem_map.mp ha
        exact hnotmem x hx (by rw [hxa, hb] at *; exact beq_self_eq_true k)

/-- Witness for C3 at concrete inputs: upserting `oppA` into an empty
store creates the single row at time 5; re-upserting the same key as
`oppB` at time 9 leaves exactly one row with the latest scalars,
`modified_at = 9` and `created_at` still 5. -/
theorem upsert_exactly_one_row_witness :
    oppA.notice_id = some nidOne ∧ oppKeysNodup dbEmpty ∧
    dbAfterA.opportunities.filter (fun r => r.notice_id == nidOne) =
      [{ notice_id := nidOne, scalars := scalarsOf oppA,
         created_at :=
           match dbEmpty.opportunities.find? (fun r => r.notice_id == nidOne)
             with
           | some r => r.created_at
           | none => 5,
         modified_at := 5 }] ∧
    oppB.notice_id = some nidOne ∧ oppKeysNodup dbAfterA ∧
    (upsert_opportunity_inner 9 dbAfterA oppB).opportunities.filter
        (fun r => r.notice_id == nidOne) =
      [{ notice_id := nidOne, scalars := scalarsOf oppB,
         created_at :=
           match dbAfterA.opportunities.find?
             (fun r => r.notice_id == nidOne) with
           | some r => r.created_at
           | none => 9,
         modified_at := 9 }] ∧
    (match dbAfterA.opportunities.find? (fun r => r.notice_id == nidOne) with
     | some r => r.created_at
     | none => 9) = 5 :=
  ⟨rfl, by decide,
   ((upsert_exactly_one_row dbEmpty oppA 5).2 nidOne rfl (by decide)).1,
   rfl, by decide,
   ((upsert_exactly_one_row dbAfterA oppB 9).2 nidOne rfl (by decide)).1,
   by decide⟩

/-- Every row built by the contact-reinsertion statement carries the
target key, so filtering by that key keeps them all, they contribute
nothing to other keys, and their payloads are the inserted list
verbatim. -/
theorem mkContactRows_spec (k : String) (now : Nat) :
    ∀ (cs : List PointOfContact) (nid : Nat),
      (mkContactRows k now nid cs).1.filter (fun r => r.notice_id == k) =
        (mkContactRows k now nid cs).1 ∧
      (mkContactRows k now nid cs).1.filter (fun r => r.notice_id != k) =
        [] ∧
      (mkContactRows k now nid cs).1.map contactPayload = cs := by
  intro cs
  induction cs with
  | nil => intro nid; exact ⟨rfl, rfl, rfl⟩
  | cons c cs ih =>
    intro nid
    obtain ⟨h1, h2, h3⟩ := ih (nid + 1)
    refine ⟨?_, ?_, ?_⟩
    · simp [mkContactRows, List.filter_cons, h1]
    · simp [mkContactRows, List.filter_cons, h2]
    · simp [mkContactRows, h3, contactPayload]

/-- Rows kept by the contact deletion (those of other keys) contain no
row of the deleted key. -/
theorem contacts_kept_no_key (l : List ContactRow) (k : String) :
    (l.filter (fun r => r.notice_id != k)).filter
      (fun r => r.notice_id == k) = [] := by
  induction l with
  | nil => rfl
  | cons r l ih =>
    by_cases hb : r.notice_id = k
    · simp [List.filter_cons, hb, ih]
    · simp [List.filter_cons, hb, ih]

/-- The contact deletion is idempotent on the other-key rows. -/
theorem contacts_kept_idem (l : List ContactRow) (k : String) :
    (l.filter (fun r => r.notice_id != k)).filter
      (fun r => r.notice_id != k) = l.filter (fun r => r.notice_id != k) := by
  induction l with
  | nil => rfl
  | cons r l ih =>
    by_cases hb : r.notice_id = k
    · simp [List.filter_cons, hb, ih]
    · simp [List.filter_cons, hb, ih]

/-- Claim C4: after upserting a record with natural key `k`, the stored
contacts of key `k` are the record's current contact list verbatim
(absent or empty list meaning none survive), and the contacts of every
other key are untouched. -/
theorem upsert_replaces_contact_set (db : DB) (o : Opportunity) (now : Nat)
    (k : String) (hk : o.notice_id = some k) :
    ((upsert_opportunity_inner now db o).contacts.filter
        (fun r => r.notice_id == k)).map contactPayload =
      o.point_of_contact.getD [] ∧
    (upsert_opportunity_inner now db o).contacts.filter
        (fun r => r.notice_id != k) =
      db.contacts.filter (fun r => r.notice_id != k) := by
  obtain ⟨hall, hother, hpay⟩ :=
    mkContactRows_spec k now (o.point_of_contact.getD []) db.next_contact_id
  constructor
  · simp only [upsert_opportunity_inner, hk]
    rw [List.filter_append, contacts_kept_no_key, hall]
    simpa using hpay
  · simp only [upsert_opportunity_inner, hk]
    rw [List.filter_append, contacts_kept_idem, hother]
    simp

/-- Witness for C4 at concrete inputs: after upserting `oppA` the stored
contact payloads for the key are Alice and Bob; re-upserting `oppB` —
a smaller contact set — leaves exactly Charlie; re-upserting with an
empty contact list leaves none. -/
theorem upsert_replaces_contact_set_witness :
    oppA.notice_id = some nidOne ∧
    (dbAfterA.contacts.filter
        (fun r => r.notice_id == nidOne)).map contactPayload =
      oppA.point_of_contact.getD [] ∧
    ((upsert_opportunity_inner 9 dbAfterA oppB).contacts.filter
        (fun r => r.notice_id == nidOne)).map contactPayload =
      oppB.point_of_contact.getD [] ∧
    oppB.point_of_contact.getD [] =
      [⟨none, some nameCharlie, none, none, none⟩] ∧
    ((upsert_opportunity_inner 12
        (upsert_opportunity_inner 9 dbAfterA oppB)
        { oppB with point_of_contact := some [] }).contacts.filter
      (fun r => r.notice_id == nidOne)).map contactPayload = [] :=
  ⟨rfl,
   (upsert_replaces_contact_set dbEmpty oppA 5 nidOne rfl).1,
   (upsert_replaces_contact_set dbAfterA oppB 9 nidOne rfl).1,
   rfl,
   (upsert_replaces_contact_set (upsert_opportunity_inner 9 dbAfterA oppB)
     { oppB with point_of_contact := some [] } 12 nidOne rfl).1⟩

set_option maxRecDepth 4000 in
/-- Claim C7: after any insertion, `api_call_log` holds at most 200 rows
— exactly `min 200 (previous + 1)` — the retained rows are a suffix of
the previous rows followed by the new one (so only the oldest are
pruned, by primary-key order), and the newly inserted row is always
retained. -/
theorem log_api_call_ring_buffer (db : DB) (ctx : String)
    (pf pt : Option String) (calls recs : Nat) (rl : Bool)
    (err : Option String) :
    (log_api_call db ctx pf pt calls recs rl err).api_call_log.length ≤
      200 ∧
    (log_api_call db ctx pf pt calls recs rl err).api_call_log.length =
      min 200 (db.api_call_log.length + 1) ∧
    (log_api_call db ctx pf pt calls recs rl err).api_call_log <:+
      db.api_call_log ++
        [⟨db.next_log_id, ctx, pf, pt, calls, recs, rl, err⟩] ∧
    (⟨db.next_log_id, ctx, pf, pt, calls, recs, rl, err⟩ : LogRow) ∈
      (log_api_call db ctx pf pt calls recs rl err).api_call_log := by
  refine ⟨?_, ?_, ?_, ?_⟩
  · simp only [log_api_call, List.length_drop, List.length_append,
      List.length_cons, List.length_nil]
    omega
  · simp only [log_api_call, List.length_drop, List.length_append,
      List.length_cons, List.length_nil]
    omega
  · exact List.drop_suffix _ _
  · simp only [log_api_call]
    rw [List.drop_append_eq_append_drop]
    have h0 : (db.api_call_log ++
        [(⟨db.next_log_id, ctx, pf, pt, calls, recs, rl, err⟩ :
          LogRow)]).length - 200 - db.api_call_log.length = 0 := by
      simp only [List.length_append, List.length_cons, List.length_nil]
      omega
    rw [h0]
    simp

/-- After the key-update map of the `sync_state` upsert, the key is
found with the new value. -/
theorem find_upd_same (k v : String) :
    ∀ (l : List (String × String)), l.any (fun p => p.1 == k) = true →
      (l.map (fun p => if p.1 == k then (k, v) else p)).find?
        (fun p => p.1 == k) = some (k, v) := by
  intro l
  induction l with
  | nil => intro hex; simp at hex
  | cons p l ih =>
    intro hex
    by_cases hb : p.1 = k
    · simp [List.find?_cons, hb]
    · simp only [List.any_cons, Bool.or_eq_true] at hex
      rcases hex with hp | hl
      · exact absurd (eq_of_beq hp) hb
      · simp only [List.map_cons]
        rw [if_neg (by simpa using hb)]
        rw [List.find?_cons_of_neg _ (by simpa using hb)]
        exact ih hl

/-- The key-update map of the `sync_state` upsert does not affect
lookups of other keys. -/
theorem find_upd_other (k v k2 : String) (h : k2 ≠ k) :
    ∀ (l : List (String × String)),
      (l.map (fun p => if p.1 == k then (k, v) else p)).find?
        (fun p => p.1 == k2) = l.find? (fun p => p.1 == k2) := by
  intro l
  induction l with
  | nil => rfl
  | cons p l ih =>
    by_cases hb : p.1 = k
    · simp only [List.map_cons]
      rw [if_pos (by simpa using hb)]
      rw [List.find?_cons_of_neg _ (by simpa using fun hc => h hc.symm)]
      rw [List.find?_cons_of_neg _ (by
        simp only [beq_iff_eq, hb]
        exact fun hc => h hc.symm)]
      exact ih
    · simp only [List.map_cons]
      rw [if_neg (by simpa using hb)]
      by_cases hb2 : p.1 = k2
      · rw [List.find?_cons_of_pos _ (by simpa using hb2),
          List.find?_cons_of_pos _ (by simpa using hb2)]
      · rw [List.find?_cons_of_neg _ (by simpa using hb2),
          List.find?_cons_of_neg _ (by simpa using hb2)]
        exact ih

/-- Reading back the key just written by the `sync_state` upsert. -/
theorem get_set_sync_state_same (db : DB) (k v : String) :
    get_sync_state (set_sync_state db k v) k = some v := by
  simp only [get_sync_state, set_sync_state]
  by_cases hex : db.sync_state.any (fun p => p.1 == k) = true
  · rw [if_pos hex, find_upd_same k v _ hex]
    rfl
  · rw [if_neg hex, List.find?_append]
    have hnone : db.sync_state.find? (fun p => p.1 == k) = none := by
      refine List.find?_eq_none.mpr ?_
      intro x hx hc
      exact hex (List.any_eq_true.mpr ⟨x, hx, hc⟩)
    simp [hnone]

/-- The `sync_state` upsert leaves every other key unchanged. -/
theorem get_set_sync_state_other (db : DB) (k v k2 : String) (h : k2 ≠ k) :
    get_sync_state (set_sync_state db k v) k2 = get_sync_state db k2 := by
  simp only [get_sync_state, set_sync_state]
  by_cases hex : db.sync_state.any (fun p => p.1 == k) = true
  · rw [if_pos hex, find_upd_other k v k2 h]
  · rw [if_neg hex, List.find?_append]
    cases hf : db.sync_state.find? (fun p => p.1 == k2) with
    | some q => simp [hf]
    | none =>
      simp [hf]
      exact fun hc => h hc.symm

/-- `set_sync_state` touches only the `sync_state` table. -/
theorem set_sync_state_log (db : DB) (k v : String) :
    (set_sync_state db k v).api_call_log = db.api_call_log := rfl

/-- The record upsert touches neither `sync_state` nor the audit log. -/
theorem upsert_inner_state (now : Nat) (db : DB) (o : Opportunity) :
    (upsert_opportunity_inner now db o).sync_state = db.sync_state ∧
    (upsert_opportunity_inner now db o).api_call_log = db.api_call_log := by
  cases h : o.notice_id <;> simp [upsert_opportunity_inner, h]

/-- Nor does a fold of record upserts. -/
theorem foldl_upsert_state (now : Nat) :
    ∀ (os : List Opportunity) (db : DB),
      (os.foldl (upsert_opportunity_inner now) db).sync_state =
        db.sync_state ∧
      (os.foldl (upsert_opportunity_inner now) db).api_call_log =
        db.api_call_log := by
  intro os
  induction os with
  | nil => exact fun db => ⟨rfl, rfl⟩
  | cons o os ih =>
    intro db
    simp only [List.foldl_cons]
    obtain ⟨h1, h2⟩ := ih (upsert_opportunity_inner now db o)
    obtain ⟨g1, g2⟩ := upsert_inner_state now db o
    exact ⟨h1.trans g1, h2.trans g2⟩

/-- Neither does the batch upsert of a response. -/
theorem upsert_opportunities_state (now : Nat) (db : DB) (r : ApiResponse) :
    (upsert_opportunities now db r).sync_state = db.sync_state ∧
    (upsert_opportunities now db r).api_call_log = db.api_call_log := by
  cases h : r.opportunities_data with
  | none => simp [upsert_opportunities, h]
  | some os =>
    simp only [upsert_opportunities, h]
    exact foldl_upsert_state now os db

/-- Nor does applying a window's pages. -/
theorem applyPages_state (now : Nat) (db : DB) (pages : List ApiResponse) :
    (applyPages now db pages).sync_state = db.sync_state ∧
    (applyPages now db pages).api_call_log = db.api_call_log := by
  induction pages generalizing db with
  | nil => exact ⟨rfl, rfl⟩
  | cons p ps ih =>
    simp only [applyPages, List.foldl_cons]
    obtain ⟨h1, h2⟩ := ih (upsert_opportunities now db p)
    obtain ⟨g1, g2⟩ := upsert_opportunities_state now db p
    exact ⟨h1.trans g1, h2.trans g2⟩

/-- Rows surviving a `log_api_call` were already stored or are the row
just inserted. -/
theorem log_api_call_mem (db : DB) (ctx : String) (pf pt : Option String)
    (calls recs : Nat) (rl : Bool) (err : Option String) (row : LogRow)
    (h : row ∈ (log_api_call db ctx pf pt calls recs rl err).api_call_log) :
    row ∈ db.api_call_log ∨
      row = ⟨db.next_log_id, ctx, pf, pt, calls, recs, rl, err⟩ := by
  simp only [log_api_call] at h
  have hs := (List.drop_suffix _ _).subset h
  rcases List.mem_append.mp hs with h1 | h2
  · exact Or.inl h1
  · exact Or.inr (List.mem_singleton.mp h2)

/-- Claim C2: when the incremental window fetch reports rate-limited,
`run_sync` stops before any backfill fetch: it returns a summary with
`rate_limited = true` and `windows_completed = 1`, records
`last_sync = today`, announces no backfill window, and every audit row
of the final store with context `backfill` already existed before the
run — the only new row is the incremental one. -/
theorem incremental_rl_skips_backfill
    (client : String → String → Except ApiError WindowOutcome)
    (codec : DateCodec) (today : Int) (now maxCalls fuel : Nat)
    (fromOv : Option String) (db : DB) (res : WindowOutcome)
    (hcl : client (codec.fmt (today - INCREMENTAL_DAYS))
      (codec.fmt today) = .ok res)
    (hrl : res.rate_limited = true) :
    ∃ dbF,
      run_sync client codec today now maxCalls false fromOv db fuel =
        some (.ok (⟨res.api_calls, res.records, 1, true,
          get_sync_state dbF keyBackfillCursor⟩, dbF, [])) ∧
      get_sync_state dbF keyLastSync = some (codec.fmt today) ∧
      ∀ row ∈ dbF.api_call_log, row.context = ctxBackfill →
        row ∈ db.api_call_log := by
  refine ⟨set_sync_state (log_api_call (applyPages now db res.pages)
      ctxIncremental (some (codec.fmt (today - INCREMENTAL_DAYS)))
      (some (codec.fmt today)) res.api_calls res.records res.rate_limited
      none) keyLastSync (codec.fmt today), ?_, ?_, ?_⟩
  · simp [run_sync, hcl, hrl]
  · exact get_set_sync_state_same _ _ _
  · intro row hrow hctx
    rw [set_sync_state_log] at hrow
    rcases log_api_call_mem _ _ _ _ _ _ _ _ _ hrow with h1 | h2
    · rw [(applyPages_state now db res.pages).2] at h1
      exact h1
    · exfalso
      rw [h2] at hctx
      simp [ctxIncremental, ctxBackfill] at hctx

/-- Witness for C2 at concrete inputs: a rate-limited incremental window
over the empty store with budget 10. -/
theorem incremental_rl_skips_backfill_witness :
    clientRLWin (codecInt.fmt ((100 : Int) - INCREMENTAL_DAYS))
      (codecInt.fmt 100) = .ok ⟨[], 1, true⟩ ∧
    (⟨[], 1, true⟩ : WindowOutcome).rate_limited = true ∧
    ∃ dbF,
      run_sync clientRLWin codecInt 100 7 10 false none dbEmpty 5 =
        some (.ok (⟨(⟨[], 1, true⟩ : WindowOutcome).api_calls,
          WindowOutcome.records ⟨[], 1, true⟩, 1, true,
          get_sync_state dbF keyBackfillCursor⟩, dbF, [])) ∧
      get_sync_state dbF keyLastSync = some (codecInt.fmt 100) ∧
      ∀ row ∈ dbF.api_call_log, row.context = ctxBackfill →
        row ∈ dbEmpty.api_call_log :=
  ⟨rfl, rfl,
   incremental_rl_skips_backfill clientRLWin codecInt 100 7 10 5 none
     dbEmpty ⟨[], 1, true⟩ rfl rfl⟩

/-- Run invariant of the non-dry backfill loop: across any completed run,
the cursor has decreased by exactly `BACKFILL_WINDOW_DAYS` per completed
window, and if at least one window was completed the persisted
`backfill_cursor` equals the final cursor; a run that completed no
window changed nothing. -/
theorem backfillLoop_run_inv
    (client : String → String → Except ApiError WindowOutcome)
    (codec : DateCodec) (now : Nat) (floor : Option Int) (maxCalls : Nat) :
    ∀ (fuel : Nat) (st out : BackfillState),
      backfillLoop client codec now false floor maxCalls fuel st =
        some (.ok out) →
      st.windows ≤ out.windows ∧
      out.cursor = st.cursor -
        BACKFILL_WINDOW_DAYS * ((out.windows - st.windows : Nat) : Int) ∧
      (st.windows < out.windows →
        get_sync_state out.db keyBackfillCursor =
          some (codec.fmt out.cursor)) ∧
      (out.windows = st.windows → out = st) := by
  intro fuel
  induction fuel with
  | zero => intro st out h; simp [backfillLoop] at h
  | succ n ih =>
    intro st out h
    rw [backfillLoop.eq_def] at h
    simp only [] at h
    split at h
    · split at h
      · simp only [Option.some.injEq, Except.ok.injEq] at h
        subst h
        refine ⟨le_refl _, by simp, ?_, fun _ => rfl⟩
        intro hlt
        exact absurd hlt (lt_irrefl _)
      · rw [if_neg (by simp)] at h
        split at h
        · simp at h
        · rename_i res heq
          split at h
          · simp only [Option.some.injEq, Except.ok.injEq] at h
            subst h
            refine ⟨by simp, ?_, ?_, ?_⟩
            · simp [BACKFILL_WINDOW_DAYS]
            · intro _
              exact get_set_sync_state_same _ _ _
            · intro hw
              simp at hw
          · obtain ⟨m1, m2, m3, m4⟩ := ih _ _ h
            simp only at m1 m2 m3 m4
            refine ⟨by omega, ?_, ?_, ?_⟩
            · rw [m2]
              simp only [BACKFILL_WINDOW_DAYS] at *
              have hc : ((out.windows - st.windows : Nat) : Int) =
                  ((out.windows - (st.windows + 1) : Nat) : Int) + 1 := by
                omega
              rw [hc]
              ring
            · intro hlt
              by_cases hw : st.windows + 1 < out.windows
              · exact m3 hw
              · have heq2 : out.windows = st.windows + 1 := by omega
                have := m4 heq2
                rw [this]
                simp only []
                rw [get_set_sync_state_same]
            · intro hw
              omega
    · simp only [Option.some.injEq, Except.ok.injEq] at h
      subst h
      refine ⟨le_refl _, by simp, ?_, fun _ => rfl⟩
      intro hlt
      exact absurd hlt (lt_irrefl _)

/-- Claim C6: (step) every executed backfill iteration hands the loop a
state whose cursor is exactly the old cursor minus
`BACKFILL_WINDOW_DAYS`, with that new cursor already persisted in
`sync_state` — persistence happens inside the iteration, not at the end;
(run) across any completed loop run the cursor decreased by exactly
`BACKFILL_WINDOW_DAYS` per completed window and, if any window completed,
the persisted cursor equals the final cursor; (resume) a later run with
no override resolves its starting cursor to exactly the parsed persisted
value, i.e. the upper bound of window N+1. -/
theorem backfill_cursor_step_persist_resume
    (client : String → String → Except ApiError WindowOutcome)
    (codec : DateCodec) (now : Nat) (floor : Option Int) (maxCalls : Nat) :
    (∀ (fuel : Nat) (st : BackfillState) (res : WindowOutcome),
      st.used + 2 ≤ maxCalls →
      (∀ f, floor = some f → ¬ st.cursor ≤ f) →
      client (codec.fmt (st.cursor - BACKFILL_WINDOW_DAYS))
        (codec.fmt st.cursor) = .ok res →
      res.rate_limited = false →
      ∃ st2,
        backfillLoop client codec now false floor maxCalls (fuel + 1) st =
          backfillLoop client codec now false floor maxCalls fuel st2 ∧
        st2.cursor = st.cursor - BACKFILL_WINDOW_DAYS ∧
        st2.windows = st.windows + 1 ∧
        get_sync_state st2.db keyBackfillCursor =
          some (codec.fmt (st.cursor - BACKFILL_WINDOW_DAYS))) ∧
    (∀ (fuel : Nat) (st out : BackfillState),
      backfillLoop client codec now false floor maxCalls fuel st =
        some (.ok out) →
      st.windows ≤ out.windows ∧
      out.cursor = st.cursor -
        BACKFILL_WINDOW_DAYS * ((out.windows - st.windows : Nat) : Int) ∧
      (st.windows < out.windows →
        get_sync_state out.db keyBackfillCursor =
          some (codec.fmt out.cursor))) ∧
    (∀ (db : DB) (today : Int) (s : String) (d : Int),
      get_sync_state db keyBackfillCursor = some s →
      codec.parse s = some d →
      resolveCursor codec db none today = .ok d) := by
  refine ⟨?_, ?_, ?_⟩
  · intro fuel st res hbud hfl hcl hrl0
    refine ⟨⟨set_sync_state (log_api_call (applyPages now st.db res.pages)
        ctxBackfill (some (codec.fmt (st.cursor - BACKFILL_WINDOW_DAYS)))
        (some (codec.fmt st.cursor)) res.api_calls res.records
        res.rate_limited none) keyBackfillCursor
        (codec.fmt (st.cursor - BACKFILL_WINDOW_DAYS)),
      st.cursor - BACKFILL_WINDOW_DAYS,
      st.used + res.api_calls,
      st.synced + res.records,
      st.windows + 1,
      st.rate_limited,
      st.wins ++ [(codec.fmt (st.cursor - BACKFILL_WINDOW_DAYS),
        codec.fmt st.cursor)]⟩, ?_, rfl, rfl,
      get_set_sync_state_same _ _ _⟩
    conv_lhs => rw [backfillLoop.eq_def]
    cases hflo : floor with
    | none => simp [hbud, hcl, hrl0]
    | some f => simp [hbud, hcl, hrl0, hfl f hflo]
  · intro fuel st out h
    obtain ⟨m1, m2, m3, m4⟩ :=
      backfillLoop_run_inv client codec now floor maxCalls fuel st out h
    exact ⟨m1, m2, m3⟩
  · intro db today s d h1 h2
    simp [resolveCursor, h1, h2]

/-- Witness for C6 at concrete inputs: a 3-window run over the empty
store from cursor day 1000 with budget 4 ends at cursor 730 with the
persisted cursor matching; a single step from day 1000 persists day 910;
resolution over a store holding cursor string for day 730 resumes at
day 730. -/
theorem backfill_cursor_step_persist_resume_witness :
    (∃ out, backfillLoop clientOK codecInt 0 false none 4 10 stStart =
        some (.ok out) ∧
      stStart.windows ≤ out.windows ∧
      out.cursor = stStart.cursor -
        BACKFILL_WINDOW_DAYS * ((out.windows - stStart.windows : Nat) : Int) ∧
      (stStart.windows < out.windows →
        get_sync_state out.db keyBackfillCursor =
          some (codecInt.fmt out.cursor))) ∧
    resolveCursor codecInt dbCursor none 55 = .ok 730 ∧
    (∃ st2,
      backfillLoop clientOK codecInt 0 false none 4 8 stStart =
        backfillLoop clientOK codecInt 0 false none 4 7 st2 ∧
      st2.cursor = stStart.cursor - BACKFILL_WINDOW_DAYS ∧
      st2.windows = stStart.windows + 1 ∧
      get_sync_state st2.db keyBackfillCursor =
        some (codecInt.fmt (stStart.cursor - BACKFILL_WINDOW_DAYS))) := by
  refine ⟨?_, ?_, ?_⟩
  · obtain ⟨m1, m2, m3⟩ :=
      (backfill_cursor_step_persist_resume clientOK codecInt 0 none 4).2.1
        10 stStart _ rfl
    exact ⟨_, rfl, m1, m2, m3⟩
  · exact (backfill_cursor_step_persist_resume clientOK codecInt 0 none
      4).2.2 dbCursor 55 cursorStr 730 (by decide) (by decide)
  · exact (backfill_cursor_step_persist_resume clientOK codecInt 0 none
      4).1 7 stStart ⟨[], 1, false⟩ (by decide)
      (by intro f hf; simp at hf) rfl rfl

/-- Maps over a range agree when the functions agree pointwise. -/
theorem map_range_shift {α : Type} (g1 g2 : Nat → α) :
    ∀ k : Nat, (∀ i, g1 i = g2 i) →
      (List.range k).map g1 = (List.range k).map g2 := by
  intro k h
  induction k with
  | zero => rfl
  | succ n ih => simp [List.range_succ, ih, h]

/-- The dry-run backfill loop never consults the window client. -/
theorem dryLoop_client_indep (codec : DateCodec) (now : Nat)
    (c1 c2 : String → String → Except ApiError WindowOutcome) :
    ∀ (floor : Option Int) (maxCalls fuel : Nat) (st : BackfillState),
      backfillLoop c1 codec now true floor maxCalls fuel st =
        backfillLoop c2 codec now true floor maxCalls fuel st := by
  intro floor maxCalls fuel
  induction fuel with
  | zero => intro st; rfl
  | succ n ih =>
    intro st
    rw [backfillLoop.eq_def]
    conv_rhs => rw [backfillLoop.eq_def]
    simp only []
    by_cases hbud : st.used + 2 ≤ maxCalls
    · cases floor with
      | none =>
        simp only [hbud, if_true]
        rw [if_neg (by simp)]
        rw [if_neg (by simp)]
        exact ih _
      | some f =>
        by_cases hle : st.cursor ≤ f
        · simp [hbud, hle]
        · simp only [hbud, if_true, decide_eq_true_eq]
          rw [if_neg hle, if_neg hle]
          exact ih _
    · simp [hbud]

/-- In dry-run mode, each loop pass costs exactly one budgeted call and
advances one window; the store, the synced count and the rate-limit flag
are untouched, and the announced windows are consecutive 90-day steps
backward from the starting cursor. -/
theorem dryLoop_spec (client : String → String → Except ApiError WindowOutcome)
    (codec : DateCodec) (now : Nat) (floor : Option Int) (maxCalls : Nat) :
    ∀ (fuel : Nat) (st out : BackfillState),
      backfillLoop client codec now true floor maxCalls fuel st =
        some (.ok out) →
      st.windows ≤ out.windows ∧
      out.used = st.used + (out.windows - st.windows) ∧
      out.synced = st.synced ∧
      out.db = st.db ∧
      out.rate_limited = st.rate_limited ∧
      out.wins = st.wins ++ (List.range (out.windows - st.windows)).map
        (fun i : Nat =>
          (codec.fmt (st.cursor - BACKFILL_WINDOW_DAYS * ((i : Int) + 1)),
           codec.fmt (st.cursor - BACKFILL_WINDOW_DAYS * (i : Int)))) := by
  intro fuel
  induction fuel with
  | zero => intro st out h; simp [backfillLoop] at h
  | succ n ih =>
    intro st out h
    rw [backfillLoop.eq_def] at h
    simp only [] at h
    split at h
    · split at h
      · simp only [Option.some.injEq, Except.ok.injEq] at h
        subst h
        exact ⟨le_refl _, by simp, rfl, rfl, rfl, by simp⟩
      · obtain ⟨m1, m2, m3, m4, m5, m6⟩ := ih _ _ h
        simp only [] at m1 m2 m3 m4 m5 m6
        have hw : st.windows + 1 ≤ out.windows := m1
        refine ⟨by omega, by omega, m3, m4, m5, ?_⟩
        rw [m6]
        have hsplit : out.windows - st.windows =
            (out.windows - (st.windows + 1)) + 1 := by omega
        rw [hsplit, List.range_succ_eq_map, List.map_cons, List.map_map,
          List.append_assoc, List.singleton_append]
        congr 1
        congr 1
        · norm_num
        · refine map_range_shift _ _ _ ?_
          intro i
          simp only [Function.comp_apply]
          congr 1
          · congr 1
            push_cast
            ring
          · congr 1
            push_cast
            ring
    · simp only [Option.some.injEq, Except.ok.injEq] at h
      subst h
      exact ⟨le_refl _, by simp, rfl, rfl, rfl, by simp⟩

/-- Post-state of a completed dry-run backfill loop started from fresh
counters: calls used equal windows completed (one estimated call per
window), one announced window per completed window, nothing synced, and
the store untouched. -/
theorem dryLoop_post (client : String → String → Except ApiError WindowOutcome)
    (codec : DateCodec) (now : Nat) (floor : Option Int)
    (maxCalls fuel : Nat) (st0 out : BackfillState)
    (h : backfillLoop client codec now true floor maxCalls fuel st0 =
      some (.ok out))
    (hu : st0.used = 0) (hsy : st0.synced = 0) (hw : st0.windows = 0)
    (hwl : st0.wins = []) :
    out.used = out.windows ∧ out.wins.length = out.windows ∧
    out.synced = 0 ∧ out.db = st0.db ∧ out.rate_limited = st0.rate_limited := by
  obtain ⟨m1, m2, m3, m4, m5, m6⟩ :=
    dryLoop_spec client codec now floor maxCalls fuel st0 out h
  refine ⟨?_, ?_, ?_, m4, m5⟩
  · omega
  · rw [m6, hwl]
    simp only [List.nil_append, List.length_map, List.length_range]
    omega
  · omega

/-- Claim C8: in dry-run mode the scheduler consults the window client
nowhere (the run is identical for any two clients), a completed run
reports exactly one budgeted call per would-be window with nothing
synced and the store byte-for-byte unchanged, and the announced backfill
windows walk the cursor backward in consecutive
`BACKFILL_WINDOW_DAYS`-day steps from the resolved starting cursor — the
true backfill plan. -/
theorem dry_run_no_network_budget_plan (codec : DateCodec) (today : Int)
    (now maxCalls fuel : Nat) (fromOv : Option String) (db : DB) :
    (∀ c1 c2, run_sync c1 codec today now maxCalls true fromOv db fuel =
      run_sync c2 codec today now maxCalls true fromOv db fuel) ∧
    (∀ (client : String → String → Except ApiError WindowOutcome)
        (s2 : SyncSummary) (dbF : DB) (wins : List (String × String)),
      run_sync client codec today now maxCalls true fromOv db fuel =
        some (.ok (s2, dbF, wins)) →
      s2.api_calls_used = s2.windows_completed ∧
      wins.length = s2.windows_completed ∧
      s2.records_synced = 0 ∧
      dbF = db) ∧
    (∀ (client : String → String → Except ApiError WindowOutcome)
        (floor : Option Int) (fuel2 : Nat) (st out : BackfillState),
      backfillLoop client codec now true floor maxCalls fuel2 st =
        some (.ok out) →
      out.wins = st.wins ++ (List.range (out.windows - st.windows)).map
        (fun i : Nat =>
          (codec.fmt (st.cursor - BACKFILL_WINDOW_DAYS * ((i : Int) + 1)),
           codec.fmt (st.cursor - BACKFILL_WINDOW_DAYS * (i : Int))))) := by
  refine ⟨?_, ?_, ?_⟩
  · intro c1 c2
    simp only [run_sync, eq_self_iff_true, if_true,
      dryLoop_client_indep codec now c1 c2]
  · intro client s2 dbF wins h
    simp only [run_sync, eq_self_iff_true, if_true] at h
    by_cases hrem : maxCalls - 0 < 2
    · rw [if_pos hrem] at h
      simp only [Option.some.injEq, Except.ok.injEq, Prod.mk.injEq] at h
      obtain ⟨h1, h2, h3⟩ := h
      subst h1
      subst h2
      subst h3
      exact ⟨rfl, rfl, rfl, rfl⟩
    · rw [if_neg hrem] at h
      cases hres : resolveCursor codec db fromOv today with
      | error e => rw [hres] at h; simp at h
      | ok cursor0 =>
        rw [hres] at h
        simp only [] at h
        have hfin : ∀ (floor : Option Int),
            (match backfillLoop client codec now true floor maxCalls fuel
              ⟨db, cursor0, 0, 0, 0, false, []⟩ with
            | none => none
            | some (Except.error e) => some (Except.error e)
            | some (Except.ok st) =>
              some (Except.ok
                ({ api_calls_used := st.used, records_synced := st.synced,
                   windows_completed := st.windows,
                   rate_limited := st.rate_limited,
                   backfill_cursor := get_sync_state st.db
                     keyBackfillCursor : SyncSummary},
                  st.db, st.wins))) = some (.ok (s2, dbF, wins)) →
            s2.api_calls_used = s2.windows_completed ∧
            wins.length = s2.windows_completed ∧
            s2.records_synced = 0 ∧ dbF = db := by
          intro floor hm
          cases hloop : backfillLoop client codec now true floor maxCalls
              fuel ⟨db, cursor0, 0, 0, 0, false, []⟩ with
          | none => rw [hloop] at hm; simp at hm
          | some r =>
            rw [hloop] at hm
            cases r with
            | error e => simp at hm
            | ok st =>
              simp only [Option.some.injEq, Except.ok.injEq,
                Prod.mk.injEq] at hm
              obtain ⟨hm1, hm2, hm3⟩ := hm
              subst hm1
              subst hm2
              subst hm3
              obtain ⟨p1, p2, p3, p4, _⟩ := dryLoop_post client codec now
                floor maxCalls fuel _ st hloop rfl rfl rfl rfl
              exact ⟨p1, p2, p3, p4⟩
        cases fromOv with
        | none => exact hfin none h
        | some s =>
          simp only [] at h
          cases hp : codec.parse s with
          | none => rw [hp] at h; simp at h
          | some d =>
            rw [hp] at h
            simp only [] at h
            exact hfin (some d) h
  · intro client floor fuel2 st out h
    exact (dryLoop_spec client codec now floor maxCalls fuel2 st out h).2.2.2.2.2

/-- Witness for C8 at concrete inputs: a dry run with budget 5 over the
store holding cursor day 730 is identical for two different clients,
reports one call per window with nothing synced and the store unchanged,
and a dry loop from day 1000 announces consecutive 90-day windows. -/
theorem dry_run_no_network_budget_plan_witness :
    run_sync clientOK codecInt 200 0 5 true none dbCursor 20 =
      run_sync clientRLWin codecInt 200 0 5 true none dbCursor 20 ∧
    (∃ s2 dbF wins,
      run_sync clientOK codecInt 200 0 5 true none dbCursor 20 =
        some (.ok (s2, dbF, wins)) ∧
      s2.api_calls_used = s2.windows_completed ∧
      wins.length = s2.windows_completed ∧
      s2.records_synced = 0 ∧ dbF = dbCursor) ∧
    (∃ out, backfillLoop clientOK codecInt 0 true none 5 20 stStart =
        some (.ok out) ∧
      out.wins = stStart.wins ++
        (List.range (out.windows - stStart.windows)).map
          (fun i : Nat =>
            (codecInt.fmt (stStart.cursor -
              BACKFILL_WINDOW_DAYS * ((i : Int) + 1)),
             codecInt.fmt (stStart.cursor -
              BACKFILL_WINDOW_DAYS * (i : Int))))) := by
  refine ⟨?_, ?_, ?_⟩
  · exact (dry_run_no_network_budget_plan codecInt 200 0 5 20 none
      dbCursor).1 clientOK clientRLWin
  · obtain ⟨p1, p2, p3, p4⟩ := (dry_run_no_network_budget_plan codecInt
      200 0 5 20 none dbCursor).2.1 clientOK _ _ _ rfl
    exact ⟨_, _, _, rfl, p1, p2, p3, p4⟩
  · have hp := (dry_run_no_network_budget_plan codecInt 200 0 5 20 none
      dbCursor).2.2 clientOK none 20 stStart _ rfl
    exact ⟨_, rfl, hp⟩

/-- A pattern that is a prefix of an append and fits inside the left part
is a prefix of the left part. -/
theorem isPrefixOf_append_of_le (key : List Char) :
    ∀ (U V : List Char), key.isPrefixOf (U ++ V) = true →
      key.length ≤ U.length → key.isPrefixOf U = true := by
  induction key with
  | nil => intro U V _ _; simp [List.isPrefixOf]
  | cons a k ih =>
    intro U V h hl
    cases U with
    | nil => simp at hl
    | cons u U2 =>
      simp only [List.cons_append, List.isPrefixOf, Bool.and_eq_true] at h ⊢
      simp only [List.length_cons] at hl
      exact ⟨h.1, ih U2 V h.2 (by omega)⟩

/-- A pattern that is a prefix of `U ++ b :: W` but longer than `U`
contains the boundary character `b`. -/
theorem mem_key_of_cross (b : Char) :
    ∀ (U key W : List Char), key.isPrefixOf (U ++ b :: W) = true →
      U.length < key.length → b ∈ key := by
  intro U
  induction U with
  | nil =>
    intro key W h hl
    cases key with
    | nil => simp at hl
    | cons a k =>
      simp only [List.nil_append, List.isPrefixOf, Bool.and_eq_true,
        beq_iff_eq] at h
      rw [← h.1]
      exact List.mem_cons_self a k
  | cons u U2 ih =>
    intro key W h hl
    cases key with
    | nil => simp at hl
    | cons a k =>
      simp only [List.cons_append, List.isPrefixOf, Bool.and_eq_true] at h
      simp only [List.length_cons] at hl
      exact List.mem_cons_of_mem a (ih k W h.2 (by omega))

/-- A prefix occurrence is an occurrence. -/
theorem containsSeq_of_isPrefixOf (key t : List Char)
    (h : key.isPrefixOf t = true) : containsSeq key t = true := by
  cases t with
  | nil =>
    cases key with
    | nil => rfl
    | cons a k => simp [List.isPrefixOf] at h
  | cons c r => simp [containsSeq, h]

/-- Occurrences survive prepending a character. -/
theorem containsSeq_cons (key : List Char) (c : Char) (t : List Char)
    (h : containsSeq key t = true) : containsSeq key (c :: t) = true := by
  simp [containsSeq, h]

/-- An occurrence in `(X ++ [b]) ++ Y` where the boundary character `b`
is not in the pattern lies inside `X ++ [b]` or inside `Y`. -/
theorem containsSeq_boundary (key : List Char) (hk : key ≠ []) (b : Char)
    (hb : b ∉ key) :
    ∀ (X Y : List Char), containsSeq key ((X ++ [b]) ++ Y) = true →
      containsSeq key (X ++ [b]) = true ∨ containsSeq key Y = true := by
  intro X
  induction X with
  | nil =>
    intro Y h
    simp only [List.nil_append, List.singleton_append, containsSeq,
      Bool.or_eq_true] at h
    rcases h with hp | hc
    · exfalso
      cases key with
      | nil => exact hk rfl
      | cons a k =>
        simp only [List.isPrefixOf, Bool.and_eq_true, beq_iff_eq] at hp
        rw [hp.1] at hb
        exact hb (List.mem_cons_self b k)
    · exact Or.inr hc
  | cons x X2 ih =>
    intro Y h
    simp only [List.cons_append, containsSeq, Bool.or_eq_true] at h
    rcases h with hp | hc
    · by_cases hlen : key.length ≤ (x :: (X2 ++ [b])).length
      · left
        have hpre : key.isPrefixOf (x :: (X2 ++ [b])) = true := by
          refine isPrefixOf_append_of_le key _ Y ?_ hlen
          simpa [List.append_assoc] using hp
        simpa [containsSeq_of_isPrefixOf] using
          containsSeq_of_isPrefixOf key _ hpre
      · exfalso
        have hcross : key.isPrefixOf ((x :: X2) ++ b :: Y) = true := by
          simpa [List.append_assoc] using hp
        have hlt : (x :: X2).length < key.length := by
          simp only [List.length_cons, List.length_append,
            List.length_cons, List.length_nil] at hlen ⊢
          omega
        exact hb (mem_key_of_cross b (x :: X2) key Y hcross hlt)
    · rcases ih Y hc with h1 | h2
      · exact Or.inl (containsSeq_cons key x _ h1)
      · exact Or.inr h2

/-- A bracket-free pattern that is a prefix of a redaction result was
already a prefix of the unredacted text: the marker starts with `[`. -/
theorem isPrefixOf_replaceAllFuel_pull (key : List Char) :
    ∀ (fuel : Nat) (s t : List Char), t ≠ [] → '[' ∉ t →
      t.isPrefixOf (replaceAllFuel key redactionMarker fuel s) = true →
      t.isPrefixOf s = true := by
  intro fuel
  induction fuel with
  | zero => intro s t _ _ h; exact h
  | succ n ih =>
    intro s t ht hbr h
    cases s with
    | nil =>
      cases t with
      | nil => exact absurd rfl ht
      | cons a t2 => simpa [replaceAllFuel, List.isPrefixOf] using h
    | cons c rest =>
      by_cases hg : key ≠ [] ∧ key.isPrefixOf (c :: rest) = true
      · rw [replaceAllFuel, if_pos hg] at h
        have hmark : redactionMarker = '[' :: "REDACTED]".toList := by decide
        rw [hmark] at h
        cases t with
        | nil => exact absurd rfl ht
        | cons a t2 =>
          simp only [List.cons_append, List.isPrefixOf, Bool.and_eq_true,
            beq_iff_eq] at h
          rw [h.1] at hbr
          exact absurd (List.mem_cons_self _ t2) hbr
      · rw [replaceAllFuel, if_neg hg] at h
        cases t with
        | nil => exact absurd rfl ht
        | cons a t2 =>
          simp only [List.isPrefixOf, Bool.and_eq_true, beq_iff_eq] at h ⊢
          refine ⟨h.1, ?_⟩
          cases t2 with
          | nil => simp [List.isPrefixOf]
          | cons x t3 =>
            exact ih rest (x :: t3) (by simp)
              (fun hm => hbr (List.mem_cons_of_mem a hm)) h.2

/-- Core redaction property: a non-empty, bracket-free pattern that does
not occur in the redaction marker does not occur in the result of
replacing it everywhere (with adequate fuel). -/
theorem containsSeq_replaceAllFuel (key : List Char) (hk : key ≠ [])
    (hlb : '[' ∉ key) (hrb : ']' ∉ key)
    (hm : containsSeq key redactionMarker = false) :
    ∀ (fuel : Nat) (s : List Char), s.length ≤ fuel →
      containsSeq key (replaceAllFuel key redactionMarker fuel s) = false := by
  intro fuel
  induction fuel with
  | zero =>
    intro s hs
    have hnil : s = [] := List.eq_nil_of_length_eq_zero (Nat.le_zero.mp hs)
    subst hnil
    cases key with
    | nil => exact absurd rfl hk
    | cons a k => rfl
  | succ n ih =>
    intro s hs
    cases s with
    | nil =>
      cases key with
      | nil => exact absurd rfl hk
      | cons a k => rfl
    | cons c rest =>
      have hs2 : rest.length ≤ n := by
        simp only [List.length_cons] at hs
        omega
      by_cases hg : key ≠ [] ∧ key.isPrefixOf (c :: rest) = true
      · rw [replaceAllFuel, if_pos hg]
        cases hb : containsSeq key (redactionMarker ++
            replaceAllFuel key redactionMarker n
              ((c :: rest).drop key.length)) with
        | false => rfl
        | true =>
          exfalso
          have hmd : redactionMarker = "[REDACTED".toList ++ [']'] := by
            decide
          have hfit := ih ((c :: rest).drop key.length) (by
            have hkpos : 0 < key.length := List.length_pos.mpr hg.1
            simp only [List.length_drop, List.length_cons]
            omega)
          have hb2 : containsSeq key (("[REDACTED".toList ++ [']']) ++
              replaceAllFuel key redactionMarker n
                ((c :: rest).drop key.length)) = true := by
            rw [← hmd]
            exact hb
          rcases containsSeq_boundary key hk ']' hrb _ _ hb2 with hA | hB
          · rw [← hmd] at hA
            simp [hA] at hm
          · simp [hfit] at hB
      · have heq : replaceAllFuel key redactionMarker (n + 1) (c :: rest) =
            c :: replaceAllFuel key redactionMarker n rest := by
          rw [replaceAllFuel, if_neg hg]
        rw [heq]
        simp only [containsSeq, Bool.or_eq_false_iff]
        constructor
        · cases hbp : key.isPrefixOf
              (c :: replaceAllFuel key redactionMarker n rest) with
          | false => rfl
          | true =>
            exfalso
            have hbp2 : key.isPrefixOf
                (replaceAllFuel key redactionMarker (n + 1) (c :: rest)) =
                true := by
              rw [heq]
              exact hbp
            have := isPrefixOf_replaceAllFuel_pull key (n + 1) (c :: rest)
              key hk hlb hbp2
            exact hg ⟨hk, this⟩
        · exact ih rest hs2

/-- Claim C9 counterexample: for the credential `SAM` the surfaced
messages contain the credential — the fixed scaffolding itself spells
`SAM.gov` — even though every occurrence in the transport text and the
body was replaced, so the replace-based redaction cannot guarantee the
claimed "never contains" property for every credential. -/
theorem redaction_leak_cex :
    keySAM ≠ [] ∧
    containsSeq keySAM (transportMsg keySAM msgTimeout.toList) = true ∧
    containsSeq keySAM (upstreamMsg keySAM statusLine bodyDenied) = true :=
  ⟨by decide, by decide, by decide⟩

/-- Claim C9 (amended): the transport message carries the raw error text
with every credential occurrence replaced by `[REDACTED]`, and the
upstream message likewise carries the redacted body; consequently, for
every credential that is non-empty, contains no space or square
bracket, and occurs neither in the fixed message scaffolding (status
line included) nor in the redaction marker, the surfaced messages never
contain the credential. -/
theorem redaction_no_leak_amended (key status raw body : List Char)
    (hk : key ≠ []) (hsp : ' ' ∉ key) (hlb : '[' ∉ key) (hrb : ']' ∉ key)
    (h1 : containsSeq key transportScaffold = false)
    (h2 : containsSeq key (upstreamScaffold status) = false)
    (h3 : containsSeq key redactionMarker = false) :
    containsSeq key (transportMsg key raw) = false ∧
    containsSeq key (upstreamMsg key status body) = false := by
  have hts : transportScaffold =
      "Failed to connect to SAM.gov API:".toList ++ [' '] := by decide
  have hcolsp : (": ").toList = [':'] ++ [' '] := by decide
  constructor
  · cases hb : containsSeq key (transportMsg key raw) with
    | false => rfl
    | true =>
      exfalso
      have hb2 : containsSeq key
          (("Failed to connect to SAM.gov API:".toList ++ [' ']) ++
            replaceAll key redactionMarker raw) = true := by
        rw [← hts]
        exact hb
      rcases containsSeq_boundary key hk ' ' hsp _ _ hb2 with hA | hB
      · rw [← hts] at hA
        simp [hA] at h1
      · have := containsSeq_replaceAllFuel key hk hlb hrb h3
          raw.length raw le_rfl
        simp only [replaceAll] at hB
        simp [this] at hB
  · cases hb : containsSeq key (upstreamMsg key status body) with
    | false => rfl
    | true =>
      exfalso
      have hus : upstreamScaffold status =
          (("SAM.gov API returned ".toList ++ status) ++ [':']) ++ [' '] := by
        simp [upstreamScaffold, hcolsp, List.append_assoc]
      have hb2 : containsSeq key
          (((("SAM.gov API returned ".toList ++ status) ++ [':']) ++ [' ']) ++
            replaceAll key redactionMarker body) = true := by
        rw [← hus]
        exact hb
      rcases containsSeq_boundary key hk ' ' hsp _ _ hb2 with hA | hB
      · rw [← hus] at hA
        simp [hA] at h2
      · have := containsSeq_replaceAllFuel key hk hlb hrb h3
          body.length body le_rfl
        simp only [replaceAll] at hB
        simp [this] at hB

/-- Witness for the amended C9 at concrete inputs: the credential
`secretA1`, embedded in the transport text and the body, never appears
in either surfaced message. -/
theorem redaction_no_leak_amended_witness :
    keyGood ≠ [] ∧
    containsSeq keyGood rawLeaky = true ∧
    containsSeq keyGood (transportMsg keyGood rawLeaky) = false ∧
    containsSeq keyGood (upstreamMsg keyGood statusLine rawLeaky) = false :=
  ⟨by decide, by decide,
   (redaction_no_leak_amended keyGood statusLine rawLeaky rawLeaky
     (by decide) (by decide) (by decide) (by decide) (by decide)
     (by decide) (by decide)).1,
   (redaction_no_leak_amended keyGood statusLine rawLeaky rawLeaky
     (by decide) (by decide) (by decide) (by decide) (by decide)
     (by decide) (by decide)).2⟩
